import Mathlib

/-!
Shallow embedding of the committee compliance dashboard client script
(class `CommitteeDashboard`): the record model, status filtering, column
sorting, pagination, summary statistics, chart and accessibility-table
aggregation, and the initialization sequence, together with theorems
checking the documented behaviour of each operation against this
embedding.
-/

namespace CDash

/-- JavaScript values that occur in the fields of a dashboard record. -/
inductive JSVal where
  | str (s : String)
  | num (n : Int)
  | bool (b : Bool)
  | null
  | undefined
deriving DecidableEq

/-- One compliance record (a `bill` of `COMMITTEE_DATA`), with the fields the
dashboard script reads.  `Option` fields model values that may be `null`. -/
structure Bill where
  bill_id : String
  bill_title : String
  bill_url : String
  hearing_date : Option String
  deadline_60 : Option String
  effective_deadline : Option String
  extension_order_url : Option String
  extension_date : Option String
  announcement_date : Option String
  notice_gap_days : Option Int
  reported_out : Bool
  summary_present : Bool
  summary_url : Option String
  votes_present : Bool
  votes_url : Option String
  state : String
  reason : Option String
  notice_status : Option String
deriving DecidableEq

/-- An optional string field as a JS value: `null` when absent. -/
def optStr : Option String → JSVal
  | some s => .str s
  | none => .null

/-- Dynamic property access `bill[field]`: a known field yields its value,
an unknown name yields `undefined`. -/
def getField (b : Bill) (f : String) : JSVal :=
  if f == "bill_id" then .str b.bill_id
  else if f == "bill_title" then .str b.bill_title
  else if f == "bill_url" then .str b.bill_url
  else if f == "hearing_date" then optStr b.hearing_date
  else if f == "deadline_60" then optStr b.deadline_60
  else if f == "effective_deadline" then optStr b.effective_deadline
  else if f == "extension_order_url" then optStr b.extension_order_url
  else if f == "extension_date" then optStr b.extension_date
  else if f == "announcement_date" then optStr b.announcement_date
  else if f == "notice_gap_days" then
    (match b.notice_gap_days with
     | some n => .num n
     | none => .null)
  else if f == "reported_out" then .bool b.reported_out
  else if f == "summary_present" then .bool b.summary_present
  else if f == "summary_url" then optStr b.summary_url
  else if f == "votes_present" then .bool b.votes_present
  else if f == "votes_url" then optStr b.votes_url
  else if f == "state" then .str b.state
  else if f == "reason" then optStr b.reason
  else if f == "notice_status" then optStr b.notice_status
  else .undefined

/-- The field names that exist on a record. -/
def billFields : List String :=
  ["bill_id", "bill_title", "bill_url", "hearing_date", "deadline_60",
   "effective_deadline", "extension_order_url", "extension_date",
   "announcement_date", "notice_gap_days", "reported_out", "summary_present",
   "summary_url", "votes_present", "votes_url", "state", "reason",
   "notice_status"]

/-- Lexicographic comparison of character lists by code point, the order JS
uses for `<` and `>` on strings. -/
def lexCmp : List Char → List Char → Ordering
  | [], [] => .eq
  | [], _ :: _ => .lt
  | _ :: _, [] => .gt
  | c :: cs, d :: ds =>
    if c.toNat < d.toNat then .lt
    else if d.toNat < c.toNat then .gt
    else lexCmp cs ds

/-- Decimal digit-string value; `none` if empty would not apply (callers pass
nonempty lists) or a non-digit occurs. -/
def digitsToNatAux : List Char → Nat → Option Nat
  | [], acc => some acc
  | c :: cs, acc =>
    if c.isDigit then digitsToNatAux cs (acc * 10 + (c.toNat - 48)) else none

/-- Model of JS string-to-number coercion on the dashboard's value domain:
the empty string converts to 0, optionally signed decimal integer strings to
their value, anything else to NaN (`none`). -/
def strToNum (s : String) : Option Int :=
  match s.data with
  | [] => some 0
  | '-' :: cs =>
    (match cs with
     | [] => none
     | _ => (digitsToNatAux cs 0).map (fun n => -(n : Int)))
  | cs => (digitsToNatAux cs 0).map (fun n => (n : Int))

/-- Model of JS `ToNumber` on dashboard values; `none` models NaN. -/
def toNumber : JSVal → Option Int
  | .num n => some n
  | .bool b => some (if b then 1 else 0)
  | .null => some 0
  | .undefined => none
  | .str s => strToNum s

/-- Model of the JS relational `<` on the dashboard's value domain: two
strings compare lexicographically, otherwise both sides coerce to numbers and
any NaN makes the comparison false. -/
def jsLt : JSVal → JSVal → Bool
  | .str s, .str t => lexCmp s.data t.data == .lt
  | v, w =>
    match toNumber v, toNumber w with
    | some x, some y => decide (x < y)
    | _, _ => false

/-- Model of `parseInt(v) || 0` as applied to the notice-gap field: an integer
passes through, and the empty string (a normalised `null`) or any other
non-numeric value gives 0. -/
def parseIntOr0 : JSVal → Int
  | .num n => n
  | .str s => (strToNum s).getD 0
  | _ => 0

/-- Model of `new Date(s)` restricted to ISO `YYYY-MM-DD` date strings: a
valid date yields a number monotone in calendar order; any other string,
including the empty string a `null` is normalised to, yields `none`,
modelling an Invalid Date whose numeric comparisons are all false. -/
def jsDate (s : String) : Option Nat :=
  match s.data with
  | [y1, y2, y3, y4, h1, m1, m2, h2, d1, d2] =>
    if h1 = '-' && h2 = '-' && y1.isDigit && y2.isDigit && y3.isDigit
        && y4.isDigit && m1.isDigit && m2.isDigit && d1.isDigit && d2.isDigit then
      let y := (y1.toNat - 48) * 1000 + (y2.toNat - 48) * 100
                 + (y3.toNat - 48) * 10 + (y4.toNat - 48)
      let m := (m1.toNat - 48) * 10 + (m2.toNat - 48)
      let d := (d1.toNat - 48) * 10 + (d2.toNat - 48)
      if 1 ≤ m && m ≤ 12 && 1 ≤ d && d ≤ 31 then some (y * 10000 + m * 100 + d)
      else none
    else none
  | _ => none

/-- Date value of a JS value, as `new Date(v)` produces for the values the
hearing-date comparator sees. -/
def jsDateVal : JSVal → Option Nat
  | .str s => jsDate s
  | _ => none

/-- The `null` normalisation at the top of the sort comparator:
`if (aVal === null) aVal = ''`. -/
def normNull (v : JSVal) : JSVal :=
  if v = .null then .str "" else v

/-- The comparator body of `sortTable` (before the direction sign is
applied): `null` normalises to the empty string; the notice-gap field
compares via `parseInt(...) || 0`; the hearing-date field compares via
`new Date(...)` (with any invalid date making the pair compare equal);
every other field compares with the raw JS relational operators. -/
def sortCompare (field : String) (a b : Bill) : Ordering :=
  let aVal := normNull (getField a field)
  let bVal := normNull (getField b field)
  if field == "notice_gap_days" then
    compare (parseIntOr0 aVal) (parseIntOr0 bVal)
  else if field == "hearing_date" then
    match jsDateVal aVal, jsDateVal bVal with
    | some x, some y => compare x y
    | _, _ => .eq
  else
    if jsLt aVal bVal then .lt
    else if jsLt bVal aVal then .gt
    else .eq

/-- Application of the sort direction to a comparator result:
`asc` keeps it, anything else (`desc`) negates it. -/
def dirOrd (direction : String) (o : Ordering) : Ordering :=
  if direction == "asc" then o else o.swap

/-- JS `Array.prototype.sort` with a comparator: a stable sort that places
`a` no later than `b` whenever the comparator does not return a positive
value; modelled by stable merge sort. -/
def jsSortBy {α : Type} (cmp : α → α → Ordering) (l : List α) : List α :=
  l.mergeSort (fun a b => cmp a b != Ordering.gt)

/-- The `currentSort` descriptor: active field (if any) and direction string
(`asc` or `desc`). -/
structure SortState where
  field : Option String
  direction : String
deriving DecidableEq

/-- The mutable state of the dashboard: the loaded data, the filtered view,
the sort descriptor and the current page. -/
structure Dashboard where
  currentData : List Bill
  filteredData : List Bill
  currentSort : SortState
  currentPage : Int
deriving DecidableEq

/-- `itemsPerPage`, fixed at 50 by the constructor. -/
def itemsPerPage : Int := 50

/-- The constructor state: the filtered view is a copy of the full data, no
sort field is active, the direction is `asc` and the page is 1. -/
def initialDashboard (data : List Bill) : Dashboard :=
  { currentData := data
    filteredData := data
    currentSort := { field := none, direction := "asc" }
    currentPage := 1 }

/-- The filter predicate of `applyFilters`: reject exactly when the selected
status is not `all` and the record's state differs from it. -/
def filterPred (statusFilter : String) (bill : Bill) : Bool :=
  if statusFilter != "all" && bill.state != statusFilter then false else true

/-- The status filter applied to a record list. -/
def filterBills (records : List Bill) (statusFilter : String) : List Bill :=
  records.filter (filterPred statusFilter)

/-- `applyFilters`: recompute the filtered view from the full data with the
selected status and reset the current page to 1. -/
def applyFilters (d : Dashboard) (statusFilter : String) : Dashboard :=
  { d with
    filteredData := filterBills d.currentData statusFilter
    currentPage := 1 }

/-- The direction toggle in `sortTable`. -/
def toggleDirection (direction : String) : String :=
  if direction == "asc" then "desc" else "asc"

/-- `sortTable(field)`: toggle the direction when the field is already
active, otherwise activate it ascending; then stable-sort the filtered view
with the direction-signed comparator. -/
def sortTable (d : Dashboard) (field : String) : Dashboard :=
  let newSort : SortState :=
    if d.currentSort.field == some field then
      { d.currentSort with direction := toggleDirection d.currentSort.direction }
    else
      { field := some field, direction := "asc" }
  { d with
    currentSort := newSort
    filteredData :=
      jsSortBy (fun a b => dirOrd newSort.direction (sortCompare field a b))
        d.filteredData }

/-- `Math.ceil(filteredData.length / itemsPerPage)`. -/
def totalPages (d : Dashboard) : Int :=
  ((d.filteredData.length + 49) / 50 : Nat)

/-- `changePage(page)`: accept only pages within `[1, totalPages]`; any other
request leaves the state unchanged. -/
def changePage (d : Dashboard) (page : Int) : Dashboard :=
  if 1 ≤ page ∧ page ≤ totalPages d then { d with currentPage := page } else d

/-- What `renderPagination` puts in the pagination region: either only the
count line, or the range line together with prev/next controls. -/
inductive PaginationView where
  | countOnly (count : Nat)
  | controls (startItem endItem : Int) (count : Nat) (page total : Int)
      (prevDisabled nextDisabled : Bool)
deriving DecidableEq

/-- `renderPagination`: a single count line when there is at most one page,
otherwise the exact displayed range with prev/next controls. -/
def renderPagination (d : Dashboard) : PaginationView :=
  if totalPages d ≤ 1 then .countOnly d.filteredData.length
  else
    .controls ((d.currentPage - 1) * itemsPerPage + 1)
      (min (d.currentPage * itemsPerPage) (d.filteredData.length : Int))
      d.filteredData.length d.currentPage (totalPages d)
      (d.currentPage == 1) (d.currentPage == totalPages d)

/-- The headline numbers produced by `updateSummaryStats`. -/
structure SummaryStats where
  total : Nat
  compliant : Nat
  nonCompliant : Nat
  rate : Nat
deriving DecidableEq

/-- Reference rounding from the claim's words: the integer nearest to the
exact rational count/total × 100, halves rounding up.  This is the value the
claim asserts for the compliance rate; the program computes in IEEE double
precision instead, so the two can differ. -/
def roundPct (count total : Nat) : Nat :=
  (200 * count + total) / (2 * total)

/-- Fuel-driven floor of the base-2 logarithm (the fuel `n` always suffices
since halving reaches 1 within `n` steps). -/
def log2Aux : Nat → Nat → Nat
  | 0, _ => 0
  | fuel + 1, n => if n < 2 then 0 else log2Aux fuel (n / 2) + 1

/-- Floor of the base-2 logarithm of a positive natural. -/
def natLog2 (n : Nat) : Nat := log2Aux n n

/-- A nonnegative IEEE binary64 value in the normal range, as
`m * 2 ^ (e - 52)` with `2^52 ≤ m < 2^53` for nonzero values and `m = 0`
for zero. -/
structure FloatRep where
  m : Nat
  e : Int
deriving DecidableEq

/-- Decide `b * 2 ^ e ≤ a` for an integer exponent. -/
def lePow2 (b : Nat) (e : Int) (a : Nat) : Bool :=
  if 0 ≤ e then b * 2 ^ e.toNat ≤ a else b ≤ a * 2 ^ (-e).toNat

/-- Round the nonnegative rational `p / q` to the nearest integer, ties to
even — the IEEE round-to-nearest-even step. -/
def roundRatEven (p q : Nat) : Nat :=
  let n := p / q
  let r := p % q
  if 2 * r < q then n
  else if q < 2 * r then n + 1
  else if n % 2 = 0 then n else n + 1

/-- The binary exponent of `a / b` for positive `a`, `b`: the integer `e`
with `2^e ≤ a/b < 2^(e+1)`, obtained from the bit lengths and one
correction test. -/
def ratExp (a b : Nat) : Int :=
  let e0 : Int := (natLog2 a : Int) - (natLog2 b : Int)
  if lePow2 b e0 a then e0 else e0 - 1

/-- IEEE binary64 division `a / b` (round to nearest, ties to even), for
results in the normal range of doubles; division by zero is unreachable
behind the `total > 0` guard of `updateSummaryStats`. -/
def fpDiv (a b : Nat) : FloatRep :=
  if a = 0 ∨ b = 0 then { m := 0, e := 0 }
  else
    let e := ratExp a b
    let m :=
      if 0 ≤ 52 - e then roundRatEven (a * 2 ^ (52 - e).toNat) b
      else roundRatEven a (b * 2 ^ (e - 52).toNat)
    if m = 2 ^ 53 then { m := 2 ^ 52, e := e + 1 } else { m := m, e := e }

/-- IEEE binary64 multiplication by the exactly representable constant 100
(round to nearest, ties to even). -/
def fpMul100 (f : FloatRep) : FloatRep :=
  if f.m = 0 then f
  else
    let p := f.m * 100
    let k := natLog2 p - 52
    let m := roundRatEven p (2 ^ k)
    if m = 2 ^ 53 then { m := 2 ^ 52, e := f.e + (k : Int) + 1 }
    else { m := m, e := f.e + (k : Int) }

/-- `Math.round` on a nonnegative double: the integer closest to the exact
value of the double, halves rounding toward positive infinity. -/
def mathRound (f : FloatRep) : Nat :=
  if 52 < f.e then f.m * 2 ^ (f.e - 52).toNat
  else (2 * f.m + 2 ^ ((52 : Int) - f.e).toNat) / 2 ^ ((53 : Int) - f.e).toNat

/-- The rate computation `Math.round((compliant / total) * 100)` of
`updateSummaryStats`, in double precision. -/
def jsRate (compliant total : Nat) : Nat :=
  mathRound (fpMul100 (fpDiv compliant total))

/-- `updateSummaryStats` over the filtered view. -/
def updateSummaryStats (d : Dashboard) : SummaryStats :=
  let total := d.filteredData.length
  let compliant := (d.filteredData.filter (fun b => b.state == "compliant")).length
  let nonCompliant :=
    (d.filteredData.filter (fun b => b.state == "non-compliant")).length
  { total := total
    compliant := compliant
    nonCompliant := nonCompliant
    rate := if total > 0 then jsRate compliant total else 0 }

/-- Counts per status bucket, shared by the chart and the accessibility
table. -/
structure StatusCounts where
  compliant : Nat
  nonCompliant : Nat
  incomplete : Nat
  unknown : Nat
deriving DecidableEq

/-- Empty bucket counts. -/
def zeroCounts : StatusCounts :=
  { compliant := 0, nonCompliant := 0, incomplete := 0, unknown := 0 }

/-- One step of the chart aggregation of `renderComplianceChart`: a record is
counted only when its state is an own property of the literal
`{compliant, non-compliant, incomplete, unknown}` object. -/
def chartCountsStep (acc : StatusCounts) (b : Bill) : StatusCounts :=
  if b.state == "compliant" then { acc with compliant := acc.compliant + 1 }
  else if b.state == "non-compliant" then
    { acc with nonCompliant := acc.nonCompliant + 1 }
  else if b.state == "incomplete" then
    { acc with incomplete := acc.incomplete + 1 }
  else if b.state == "unknown" then { acc with unknown := acc.unknown + 1 }
  else acc

/-- The four data values fed to the compliance chart. -/
def chartStatusCounts (l : List Bill) : StatusCounts :=
  l.foldl chartCountsStep zeroCounts

/-- One step of the accessibility-table aggregation of
`updateAccessibilityTables`: the `switch` sends every state other than the
three named ones to the `Unknown` row. -/
def accessCountsStep (acc : StatusCounts) (b : Bill) : StatusCounts :=
  if b.state == "compliant" then { acc with compliant := acc.compliant + 1 }
  else if b.state == "non-compliant" then
    { acc with nonCompliant := acc.nonCompliant + 1 }
  else if b.state == "incomplete" then
    { acc with incomplete := acc.incomplete + 1 }
  else { acc with unknown := acc.unknown + 1 }

/-- The four counts of the accessible compliance table. -/
def accessStatusCounts (l : List Bill) : StatusCounts :=
  l.foldl accessCountsStep zeroCounts

/-- Value of the status-filter select control during `loadFiltersFromURL`:
the URL's `state` parameter when present.  Modelled from the spec: the
dashboard page template carrying the select control is not among the
sources; per the spec the control defaults to `all` when the parameter is
absent. -/
def statusControlValue (urlState : Option String) : String :=
  match urlState with
  | some v => v
  | none => "all"

/-- The successive filtered views passed to `renderTable` during `init`:
`init` renders once right after construction and then calls
`loadFiltersFromURL`, which runs `applyFilters` (reading the select seeded
from the URL) and renders again. -/
def initRenders (data : List Bill) (urlState : Option String) :
    List (List Bill) :=
  let d0 := initialDashboard data
  let d1 := applyFilters d0 (statusControlValue urlState)
  [d0.filteredData, d1.filteredData]

/-- Reference ordering written from the claim's words, for comparison with
the comparator of the source: null and absent values normalise to the empty
string and sort before any non-empty value; the notice-gap field compares as
integers with non-numeric values coerced to 0; date-like fields compare in
chronological calendar order; all other fields compare lexicographically. -/
def specCompare (field : String) (a b : Bill) : Ordering :=
  let av := normNull (getField a field)
  let bv := normNull (getField b field)
  if field == "notice_gap_days" then
    compare (parseIntOr0 av) (parseIntOr0 bv)
  else
    match av, bv with
    | .str "", .str "" => .eq
    | .str "", _ => .lt
    | _, .str "" => .gt
    | v, w =>
      if field == "hearing_date" || field == "deadline_60"
          || field == "effective_deadline" then
        match jsDateVal v, jsDateVal w with
        | some x, some y => compare x y
        | _, _ => .eq
      else if jsLt v w then .lt
      else if jsLt w v then .gt
      else .eq

/-- Reference operation written from the claim's words: after a filter
change, re-run the last active comparator (if any) over the new filtered
sequence. -/
def specResort (sort : SortState) (l : List Bill) : List Bill :=
  match sort.field with
  | none => l
  | some f => jsSortBy (fun a b => dirOrd sort.direction (sortCompare f a b)) l

/-- Sample record builder for the concrete instances below. -/
def sampleBill (id st : String) (gap : Option Int) (hd d60 : Option String) :
    Bill :=
  { bill_id := id
    bill_title := "A bill"
    bill_url := "https://example.org/b"
    hearing_date := hd
    deadline_60 := d60
    effective_deadline := none
    extension_order_url := none
    extension_date := none
    announcement_date := none
    notice_gap_days := gap
    reported_out := false
    summary_present := false
    summary_url := none
    votes_present := false
    votes_url := none
    state := st
    reason := none
    notice_status := none }

/-- A compliant sample record. -/
def sampleCompliant : Bill := sampleBill "S1" "compliant" (some 9) none none

/-- A non-compliant sample record. -/
def sampleNonCompliant : Bill :=
  sampleBill "S2" "non-compliant" (some 2) none none

/-- An incomplete sample record. -/
def sampleIncomplete : Bill := sampleBill "S3" "incomplete" none none none

/-- A record whose state is outside the four enumerated status values. -/
def weirdBill : Bill := sampleBill "W" "weird" none none none

/-- Records with notice gaps 9, 10, 2 and null, for the gap-sort example. -/
def gBill9 : Bill := sampleBill "G1" "compliant" (some 9) none none

/-- Gap 10 record. -/
def gBill10 : Bill := sampleBill "G2" "compliant" (some 10) none none

/-- Gap 2 record. -/
def gBill2 : Bill := sampleBill "G3" "non-compliant" (some 2) none none

/-- Gap null record. -/
def gBillNone : Bill := sampleBill "G4" "incomplete" none none none

/-- Dashboard loaded with the gap-example records. -/
def gapsDash : Dashboard := initialDashboard [gBill9, gBill10, gBill2, gBillNone]

/-- Two records with equal notice gaps, to exercise sort ties. -/
def tieBillA : Bill := sampleBill "TA" "compliant" (some 1) none none

/-- The second tied record. -/
def tieBillB : Bill := sampleBill "TB" "compliant" (some 1) none none

/-- Dashboard loaded with the two tied records. -/
def tieDash : Dashboard := initialDashboard [tieBillA, tieBillB]

/-- A dashboard that was sorted by notice gap (so a sort field is active). -/
def sortedDash : Dashboard :=
  sortTable (initialDashboard [sampleCompliant, sampleNonCompliant])
    "notice_gap_days"

/-- A dashboard whose filtered view holds 120 records, on page 2. -/
def pageDash120 : Dashboard :=
  { currentData := List.replicate 120 sampleCompliant
    filteredData := List.replicate 120 sampleCompliant
    currentSort := { field := none, direction := "asc" }
    currentPage := 2 }

/-- A dashboard with three records of which one is compliant. -/
def rateDash3 : Dashboard :=
  initialDashboard [sampleCompliant, sampleNonCompliant, sampleIncomplete]

/-- A dashboard with no records. -/
def emptyDash : Dashboard := initialDashboard []

/-- A dashboard with 40 records of which 23 are compliant, where double
rounding diverges from exact rational rounding. -/
def floatDash2340 : Dashboard :=
  initialDashboard (List.replicate 23 sampleCompliant
    ++ List.replicate 17 sampleNonCompliant)

/-- A dashboard whose records are all non-compliant. -/
def noCompliantDash : Dashboard := initialDashboard [sampleNonCompliant]

/-- A record with a null hearing date. -/
def hdBillNone : Bill := sampleBill "H1" "compliant" none none none

/-- A record with hearing date 2025-06-01. -/
def hdBillJun : Bill :=
  sampleBill "H2" "compliant" none (some "2025-06-01") none

/-- A record with hearing date 2025-07-15. -/
def hdBillJul : Bill :=
  sampleBill "H3" "compliant" none (some "2025-07-15") none

/-- A record with no base deadline. -/
def dlBillNone : Bill := sampleBill "D1" "compliant" none none none

/-- A record with base deadline 2025-01-02. -/
def dlBillA : Bill :=
  sampleBill "D2" "compliant" none none (some "2025-01-02")

/-- Every list is pairwise related by a relation that always holds. -/
theorem pairwiseAll {α : Type} {r : α → α → Prop} (h : ∀ x y, r x y) :
    ∀ l : List α, l.Pairwise r
  | [] => .nil
  | a :: t => .cons (fun y _ => h a y) (pairwiseAll h t)

/-- Applying a sort direction to an equal comparison yields equal. -/
theorem dirOrd_eq (dir : String) : dirOrd dir .eq = .eq := by
  unfold dirOrd
  split <;> rfl

/-- Property access with a name that is not a record field yields
`undefined`. -/
theorem getField_of_not_mem (b : Bill) (f : String) (hf : f ∉ billFields) :
    getField b f = .undefined := by
  simp only [billFields, List.mem_cons, List.not_mem_nil, or_false, not_or] at hf
  obtain ⟨h1, h2, h3, h4, h5, h6, h7, h8, h9, h10, h11, h12, h13, h14, h15,
    h16, h17, h18⟩ := hf
  simp [getField, h1, h2, h3, h4, h5, h6, h7, h8, h9, h10, h11, h12, h13,
    h14, h15, h16, h17, h18]

/-- The sort comparator returns 0 on every pair when the sort field is not a
record field (both sides are `undefined`, and `undefined` comparisons are
false). -/
theorem sortCompare_unknown_field (f : String) (hf : f ∉ billFields)
    (a b : Bill) : sortCompare f a b = .eq := by
  have hg : f ≠ "notice_gap_days" := by
    intro h
    exact hf (by rw [h]; decide)
  have hh : f ≠ "hearing_date" := by
    intro h
    exact hf (by rw [h]; decide)
  simp [sortCompare, getField_of_not_mem a f hf, getField_of_not_mem b f hf,
    normNull, jsLt, toNumber, hg, hh]

/-- Chart aggregation and accessibility aggregation agree step by step on
records whose state is one of the four enumerated values. -/
theorem foldl_counts_congr :
    ∀ l : List Bill,
      (∀ b ∈ l, b.state = "compliant" ∨ b.state = "non-compliant"
          ∨ b.state = "incomplete" ∨ b.state = "unknown") →
      ∀ acc : StatusCounts,
        l.foldl chartCountsStep acc = l.foldl accessCountsStep acc
  | [], _, _ => rfl
  | b :: t, h, acc => by
    have hb := h b (List.mem_cons_self b t)
    have ht : ∀ x ∈ t, x.state = "compliant" ∨ x.state = "non-compliant"
        ∨ x.state = "incomplete" ∨ x.state = "unknown" :=
      fun x hx => h x (List.mem_cons_of_mem b hx)
    have hstep : chartCountsStep acc b = accessCountsStep acc b := by
      rcases hb with h1 | h1 | h1 | h1 <;>
        simp +decide [chartCountsStep, accessCountsStep, h1]
    simp only [List.foldl_cons, hstep]
    exact foldl_counts_congr t ht _

/-- C1: for every record list and status value, applying the status filter
with a status other than `all` produces exactly the records whose state
equals that status, in their original relative order, and applying it with
`all` produces the full list unchanged in order. -/
theorem c1_status_filter_correct (d : Dashboard) (S : String) :
    (S ≠ "all" →
      (applyFilters d S).filteredData
        = d.currentData.filter (fun b => b.state == S))
    ∧ (S = "all" → (applyFilters d S).filteredData = d.currentData) := by
  constructor
  · intro hS
    show filterBills d.currentData S = _
    rw [filterBills]
    apply List.filter_congr
    intro b _
    by_cases h : b.state = S <;> simp [filterPred, hS, h]
  · intro hS
    subst hS
    show filterBills d.currentData "all" = _
    rw [filterBills]
    simp [filterPred]

/-- Witness for C1 at a concrete two-record dashboard. -/
theorem c1_status_filter_correct_witness :
    (applyFilters (initialDashboard [sampleCompliant, sampleNonCompliant])
        "compliant").filteredData = [sampleCompliant]
    ∧ (applyFilters (initialDashboard [sampleCompliant, sampleNonCompliant])
        "all").filteredData = [sampleCompliant, sampleNonCompliant] := by
  constructor
  · have h := (c1_status_filter_correct
      (initialDashboard [sampleCompliant, sampleNonCompliant]) "compliant").1
      (by decide)
    exact h.trans (by decide)
  · exact (c1_status_filter_correct
      (initialDashboard [sampleCompliant, sampleNonCompliant]) "all").2 rfl

/-- C2 (amended): every filter change resets the current page to 1 and
leaves the sort descriptor untouched, but the new filtered sequence is
recomputed from the full data in original load order; the last active
comparator is not re-run over it. -/
theorem c2_filter_page_reset_order (d : Dashboard) (S : String) :
    (applyFilters d S).currentPage = 1
    ∧ (applyFilters d S).currentSort = d.currentSort
    ∧ (applyFilters d S).filteredData = filterBills d.currentData S :=
  ⟨rfl, rfl, rfl⟩

/-- C2 counterexample: on a dashboard whose active sort is the notice gap
ascending, applying the `all` filter yields the load order, not the order
obtained by re-running the active comparator over the filtered sequence. -/
theorem c2_resort_counterexample :
    (applyFilters sortedDash "all").filteredData
      ≠ specResort sortedDash.currentSort
          (filterBills sortedDash.currentData "all") := by
  simp +decide [sortedDash, sortTable, initialDashboard, jsSortBy,
    List.mergeSort, List.splitInTwo, List.splitAt, List.splitAt.go,
    List.merge, dirOrd, sortCompare, getField, normNull, parseIntOr0,
    sampleCompliant, sampleNonCompliant, sampleBill, applyFilters,
    filterBills, filterPred, specResort]

/-- C5 (amended): when every record state is one of the four enumerated
values, the chart channel and the accessible-table channel publish the same
four counts; a record with any other state is counted in the accessible
table's Unknown row and in no chart bucket. -/
theorem c5_channels_amended :
    (∀ l : List Bill,
        (∀ b ∈ l, b.state = "compliant" ∨ b.state = "non-compliant"
            ∨ b.state = "incomplete" ∨ b.state = "unknown") →
        chartStatusCounts l = accessStatusCounts l)
    ∧ ∀ (l : List Bill) (b : Bill),
        b.state ≠ "compliant" → b.state ≠ "non-compliant" →
        b.state ≠ "incomplete" → b.state ≠ "unknown" →
        chartStatusCounts (l ++ [b]) = chartStatusCounts l
          ∧ accessStatusCounts (l ++ [b])
              = { accessStatusCounts l with
                    unknown := (accessStatusCounts l).unknown + 1 } := by
  constructor
  · intro l hl
    exact foldl_counts_congr l hl zeroCounts
  · intro l b h1 h2 h3 h4
    constructor
    · unfold chartStatusCounts
      rw [List.foldl_append]
      simp [chartCountsStep, h1, h2, h3, h4]
    · unfold accessStatusCounts
      rw [List.foldl_append]
      simp [accessCountsStep, h1, h2, h3]

/-- Witness for C5 (amended) at concrete record lists. -/
theorem c5_channels_amended_witness :
    chartStatusCounts [sampleCompliant, weirdBill, sampleCompliant]
        ≠ accessStatusCounts [sampleCompliant, weirdBill, sampleCompliant]
    ∧ chartStatusCounts [sampleCompliant, sampleIncomplete]
        = accessStatusCounts [sampleCompliant, sampleIncomplete]
    ∧ accessStatusCounts ([sampleCompliant] ++ [weirdBill])
        = { accessStatusCounts [sampleCompliant] with
              unknown := (accessStatusCounts [sampleCompliant]).unknown + 1 } := by
  refine ⟨by decide, ?_, ?_⟩
  · exact c5_channels_amended.1 [sampleCompliant, sampleIncomplete] (by decide)
  · exact (c5_channels_amended.2 [sampleCompliant] weirdBill (by decide)
      (by decide) (by decide) (by decide)).2

/-- C5 counterexample: a single record whose state is outside the four
enumerated values is dropped by the chart aggregation but counted as Unknown
by the accessibility-table aggregation, so the two channels disagree. -/
theorem c5_channels_counterexample :
    chartStatusCounts [weirdBill] ≠ accessStatusCounts [weirdBill] := by
  decide

set_option maxRecDepth 16384

/-- C6: the page count is the ceiling of the filtered count over the fixed
page size 50; with at most one page only a count line is shown without
prev/next controls; otherwise the displayed range is exactly
start = (page-1)*50+1 and end = min(page*50, filteredCount); with 120
records on page 2 the range reads 51 to 100 of 120. -/
theorem c6_pagination_bounds (d : Dashboard) :
    (0 < d.filteredData.length →
        (totalPages d - 1) * 50 < (d.filteredData.length : Int)
          ∧ (d.filteredData.length : Int) ≤ totalPages d * 50)
    ∧ (d.filteredData.length = 0 → totalPages d = 0)
    ∧ (totalPages d ≤ 1 →
        renderPagination d = .countOnly d.filteredData.length)
    ∧ (1 < totalPages d →
        renderPagination d
          = .controls ((d.currentPage - 1) * 50 + 1)
              (min (d.currentPage * 50) (d.filteredData.length : Int))
              d.filteredData.length d.currentPage (totalPages d)
              (d.currentPage == 1) (d.currentPage == totalPages d))
    ∧ renderPagination pageDash120 = .controls 51 100 120 2 3 false false := by
  refine ⟨?_, ?_, ?_, ?_, by decide⟩
  · intro h
    simp only [totalPages]
    omega
  · intro h
    simp [totalPages, h]
  · intro h
    simp only [renderPagination]
    rw [if_pos h]
  · intro h
    simp only [renderPagination, itemsPerPage]
    rw [if_neg (by omega)]

/-- Witness for C6 at concrete dashboards. -/
theorem c6_pagination_bounds_witness :
    renderPagination pageDash120 = .controls 51 100 120 2 3 false false
    ∧ renderPagination emptyDash = .countOnly 0 := by
  constructor
  · exact (c6_pagination_bounds pageDash120).2.2.2.2
  · exact (c6_pagination_bounds emptyDash).2.2.1 (by decide)

/-- C7 (amended): an out-of-range page request leaves the whole dashboard
state unchanged and surfaces no error; sorting by a name that is not a
record field never raises and leaves the filtered sequence and the current
page unchanged, but it does set the unknown name as the active sort
field. -/
theorem c7_invalid_nav_amended (d : Dashboard) :
    (∀ n : Int, ¬ (1 ≤ n ∧ n ≤ totalPages d) → changePage d n = d)
    ∧ ∀ f : String, f ∉ billFields →
        (sortTable d f).filteredData = d.filteredData
          ∧ (sortTable d f).currentPage = d.currentPage
          ∧ (sortTable d f).currentSort.field = some f := by
  constructor
  · intro n hn
    simp [changePage, hn]
  · intro f hf
    refine ⟨?_, rfl, ?_⟩
    · simp only [sortTable, jsSortBy]
      apply List.mergeSort_of_sorted
      apply pairwiseAll
      intro x y
      rw [sortCompare_unknown_field f hf x y, dirOrd_eq]
      decide
    · cases hc : (d.currentSort.field == some f) with
      | false => simp [sortTable, hc]
      | true => simp_all [sortTable, hc]

/-- Witness for C7 (amended) at a concrete dashboard, page 0 and an unknown
sort field. -/
theorem c7_invalid_nav_amended_witness :
    changePage (initialDashboard [sampleCompliant]) 0
        = initialDashboard [sampleCompliant]
    ∧ (sortTable (initialDashboard [sampleCompliant])
          "bogus_field").filteredData
        = (initialDashboard [sampleCompliant]).filteredData := by
  constructor
  · exact (c7_invalid_nav_amended (initialDashboard [sampleCompliant])).1 0
      (by decide)
  · exact ((c7_invalid_nav_amended (initialDashboard [sampleCompliant])).2
      "bogus_field" (by decide)).1

/-- C7 counterexample: sorting by an unknown field name is not a complete
no-op, because the sort descriptor is updated to the unknown name. -/
theorem c7_sort_noop_counterexample :
    (sortTable (initialDashboard [sampleCompliant]) "bogus_field").currentSort
      ≠ (initialDashboard [sampleCompliant]).currentSort := by
  decide

/-- C8 (amended): initialization renders the table first with the full
unfiltered data and only then reads the URL's status parameter, rendering a
second time with the seeded filter, or with `all` when the parameter is
absent; so the first render never reflects a narrowing URL filter. -/
theorem c8_init_order_amended (data : List Bill) (urlState : Option String) :
    initRenders data urlState
      = [data, filterBills data (urlState.getD "all")] := by
  cases urlState <;> rfl

/-- C8 counterexample: with two records and the URL parameter set to
`compliant`, the first render of `init` shows the unfiltered data, not the
URL-seeded filter result. -/
theorem c8_url_read_counterexample :
    (initRenders [sampleCompliant, sampleNonCompliant]
        (some "compliant")).head?
      ≠ some (filterBills [sampleCompliant, sampleNonCompliant]
          "compliant") := by
  decide

/-- C9 counterexample: with 23 compliant of 40 filtered records the
program's double-precision product (23/40)*100 is just below 57.5 and
`Math.round` gives 57, while the claim's exact rational rounding
round(23/40 × 100) gives 58. -/
theorem c9_rate_counterexample :
    (updateSummaryStats floatDash2340).rate ≠ roundPct 23 40 := by
  decide

/-- C9 (amended): the summary reports the filtered count and the compliant
count, and the rate is `Math.round((compliant/total)*100)` computed in IEEE
double precision: 0 when the total is 0 and also when the compliant count
is 0, 33 for 1 compliant of 3; because of double rounding it can differ
from the exact rational rounding the claim states, for instance 23
compliant of 40 gives 57 where exact rounding gives 58. -/
theorem c9_compliance_rate_amended (d : Dashboard) :
    (updateSummaryStats d).total = d.filteredData.length
    ∧ (updateSummaryStats d).compliant
        = (d.filteredData.filter (fun b => b.state == "compliant")).length
    ∧ ((updateSummaryStats d).total = 0 → (updateSummaryStats d).rate = 0)
    ∧ ((updateSummaryStats d).compliant = 0 →
        (updateSummaryStats d).rate = 0)
    ∧ (updateSummaryStats rateDash3).rate = 33
    ∧ (updateSummaryStats emptyDash).rate = 0
    ∧ (updateSummaryStats floatDash2340).rate = 57
    ∧ roundPct 23 40 = 58 := by
  refine ⟨rfl, rfl, ?_, ?_, by decide, by decide, by decide, by decide⟩
  · intro h
    simp only [updateSummaryStats] at h ⊢
    rw [if_neg (by omega)]
  · intro h
    simp only [updateSummaryStats] at h ⊢
    by_cases ht : 0 < d.filteredData.length
    · rw [if_pos ht, h]
      have hz : fpDiv 0 d.filteredData.length = { m := 0, e := 0 } := by
        unfold fpDiv
        rw [if_pos (Or.inl rfl)]
      simp only [jsRate]
      rw [hz]
      decide
    · rw [if_neg ht]

/-- Witness for C9 (amended) at concrete dashboards. -/
theorem c9_compliance_rate_amended_witness :
    (updateSummaryStats emptyDash).rate = 0
    ∧ (updateSummaryStats noCompliantDash).rate = 0
    ∧ (updateSummaryStats rateDash3).rate = 33 := by
  refine ⟨?_, ?_, ?_⟩
  · exact (c9_compliance_rate_amended emptyDash).2.2.1 rfl
  · exact (c9_compliance_rate_amended noCompliantDash).2.2.2.1 (by decide)
  · exact (c9_compliance_rate_amended rateDash3).2.2.2.2.1

/-- C10: filtering by a value other than `all` that matches no record's
state raises nothing, produces an empty filtered view and takes the
zero-count rendering path, rather than falling back to `all`. -/
theorem c10_unmatched_filter_empty (d : Dashboard) (v : String)
    (hv : v ≠ "all") (hnone : ∀ b ∈ d.currentData, b.state ≠ v) :
    (applyFilters d v).filteredData = []
      ∧ renderPagination (applyFilters d v) = .countOnly 0 := by
  have h : (applyFilters d v).filteredData = [] := by
    show filterBills d.currentData v = []
    rw [filterBills, List.filter_eq_nil_iff]
    intro b hb
    simp [filterPred, hv, hnone b hb]
  refine ⟨h, ?_⟩
  have h2 : (applyFilters d v).filteredData.length = 0 := by
    rw [h]
    rfl
  simp [renderPagination, totalPages, h2]

/-- Boolean inequality with `gt` expressed as a proposition. -/
theorem bne_gt_iff {o : Ordering} : (o != Ordering.gt) = true ↔ o ≠ .gt := by
  cases o <;> decide

/-- Swapping an ordering is injective on comparisons with `gt`. -/
theorem swap_ne_gt {o : Ordering} : o.swap ≠ .gt ↔ o ≠ .lt := by
  cases o <;> decide

/-- An ordering swaps to `lt` exactly when it is `gt`. -/
theorem swap_eq_lt {o : Ordering} : o.swap = .lt ↔ o = .gt := by
  cases o <;> decide

/-- An ordering swaps to `eq` exactly when it is `eq`. -/
theorem swap_eq_eq {o : Ordering} : o.swap = .eq ↔ o = .eq := by
  cases o <;> decide

/-- Character-list comparison is antisymmetric under argument swap. -/
theorem lexCmp_swap : ∀ x y : List Char, lexCmp y x = (lexCmp x y).swap
  | [], [] => rfl
  | [], _ :: _ => rfl
  | _ :: _, [] => rfl
  | c :: cs, d :: ds => by
    simp only [lexCmp]
    rcases Nat.lt_trichotomy c.toNat d.toNat with h | h | h
    · have h' : ¬ d.toNat < c.toNat := by omega
      simp [h, h', Ordering.swap]
    · have h1 : ¬ c.toNat < d.toNat := by omega
      have h2 : ¬ d.toNat < c.toNat := by omega
      simp [h1, h2, lexCmp_swap cs ds]
    · have h' : ¬ c.toNat < d.toNat := by omega
      simp [h, h', Ordering.swap]

/-- Character-list comparison is transitive in the at-most sense. -/
theorem lexCmp_le_trans :
    ∀ x y z : List Char, lexCmp x y ≠ .gt → lexCmp y z ≠ .gt →
      lexCmp x z ≠ .gt
  | [], _, [] => by simp [lexCmp]
  | [], _, _ :: _ => by simp [lexCmp]
  | x :: xs, [], z => by
    intro h1 _
    exact absurd rfl h1
  | x :: xs, y :: ys, [] => by
    intro _ h2
    exact absurd rfl h2
  | x :: xs, y :: ys, z :: zs => by
    intro h1 h2
    have hxy : ¬ y.toNat < x.toNat := by
      intro hlt
      apply h1
      simp only [lexCmp]
      rw [if_neg (by omega), if_pos hlt]
    have hyz : ¬ z.toNat < y.toNat := by
      intro hlt
      apply h2
      simp only [lexCmp]
      rw [if_neg (by omega), if_pos hlt]
    simp only [lexCmp] at h1 h2 ⊢
    rcases Nat.lt_trichotomy x.toNat z.toNat with h | h | h
    · rw [if_pos h]
      simp
    · rw [if_neg (by omega), if_neg (by omega)]
      have hbx : ¬ x.toNat < y.toNat := by omega
      have hby : ¬ y.toNat < z.toNat := by omega
      rw [if_neg hbx, if_neg (by omega)] at h1
      rw [if_neg hby, if_neg (by omega)] at h2
      exact lexCmp_le_trans xs ys zs h1 h2
    · exact absurd h (by omega)

/-- The two-sided strict comparison in the generic sort branch equals the
lexicographic ordering. -/
theorem cmpStr_eq_lexCmp (x y : List Char) :
    (if lexCmp x y == Ordering.lt then Ordering.lt
     else if lexCmp y x == Ordering.lt then Ordering.gt
     else Ordering.eq) = lexCmp x y := by
  rw [lexCmp_swap x y]
  cases h : lexCmp x y <;> simp +decide [h]

/-- On the `bill_id` field the sort comparator is exactly the lexicographic
comparison of the two identifiers. -/
theorem sortCompare_bill_id (a b : Bill) :
    sortCompare "bill_id" a b = lexCmp a.bill_id.data b.bill_id.data := by
  have h := cmpStr_eq_lexCmp a.bill_id.data b.bill_id.data
  simp +decide [sortCompare, getField, normNull, jsLt] at h ⊢
  exact h

/-- The `bill_id` comparator is antisymmetric under argument swap. -/
theorem sortCompare_bill_id_swap (a b : Bill) :
    sortCompare "bill_id" b a = (sortCompare "bill_id" a b).swap := by
  rw [sortCompare_bill_id, sortCompare_bill_id]
  exact lexCmp_swap _ _

/-- The `bill_id` comparator is transitive in the at-most sense. -/
theorem sortCompare_bill_id_le_trans (a b c : Bill) :
    sortCompare "bill_id" a b ≠ .gt → sortCompare "bill_id" b c ≠ .gt →
      sortCompare "bill_id" a c ≠ .gt := by
  rw [sortCompare_bill_id, sortCompare_bill_id, sortCompare_bill_id]
  exact lexCmp_le_trans _ _ _

/-- Two pairwise-sorted permutations of each other whose relation is
antisymmetric on their members are equal. -/
theorem eq_of_perm_of_pairwise {α : Type} {r : α → α → Prop} :
    ∀ {l₁ l₂ : List α}, l₁.Perm l₂ → l₁.Pairwise r → l₂.Pairwise r →
      (∀ a ∈ l₁, ∀ b ∈ l₁, r a b → r b a → a = b) → l₁ = l₂ := by
  intro l₁
  induction l₁ with
  | nil =>
    intro l₂ hp _ _ _
    cases l₂ with
    | nil => rfl
    | cons b t₂ =>
      have := hp.length_eq
      simp at this
  | cons a t ih =>
    intro l₂ hp h₁ h₂ anti
    cases l₂ with
    | nil =>
      have := hp.length_eq
      simp at this
    | cons b t₂ =>
      have hab : a = b := by
        have ha₂ : a ∈ b :: t₂ := hp.mem_iff.mp (List.mem_cons_self a t)
        have hb₁ : b ∈ a :: t := hp.mem_iff.mpr (List.mem_cons_self b t₂)
        rcases List.mem_cons.mp ha₂ with h | h
        · exact h
        · rcases List.mem_cons.mp hb₁ with h' | h'
          · exact h'.symm
          · have rba : r b a := (List.pairwise_cons.mp h₂).1 a h
            have rab : r a b := (List.pairwise_cons.mp h₁).1 b h'
            exact anti a (List.mem_cons_self a t) b
              (List.mem_cons_of_mem a h') rab rba
      subst hab
      have hp' : t.Perm t₂ := hp.cons_inv
      have ht := ih hp' (List.pairwise_cons.mp h₁).2
        (List.pairwise_cons.mp h₂).2
        (fun x hx y hy hxy hyx =>
          anti x (List.mem_cons_of_mem a hx) y (List.mem_cons_of_mem a hy)
            hxy hyx)
      rw [ht]

/-- Totality of the keep-before relation of a comparator that is
antisymmetric under argument swap. -/
theorem cmp_total_of_swap {α : Type} (cmp : α → α → Ordering)
    (hswap : ∀ a b, cmp b a = (cmp a b).swap) (a b : α) :
    ((cmp a b != Ordering.gt) || (cmp b a != Ordering.gt)) = true := by
  rw [hswap a b]
  cases h : cmp a b <;> simp +decide [h, Ordering.swap]

/-- Transitivity of the keep-before relation, in `Bool` form. -/
theorem cmp_trans_le {α : Type} (cmp : α → α → Ordering)
    (htrans : ∀ a b c, cmp a b ≠ .gt → cmp b c ≠ .gt → cmp a c ≠ .gt)
    (a b c : α) :
    (cmp a b != Ordering.gt) = true → (cmp b c != Ordering.gt) = true →
      (cmp a c != Ordering.gt) = true := by
  intro h1 h2
  exact bne_gt_iff.mpr (htrans a b c (bne_gt_iff.mp h1) (bne_gt_iff.mp h2))

/-- The swapped comparator inherits keep-before transitivity. -/
theorem swap_htrans {α : Type} (cmp : α → α → Ordering)
    (hswap : ∀ a b, cmp b a = (cmp a b).swap)
    (htrans : ∀ a b c, cmp a b ≠ .gt → cmp b c ≠ .gt → cmp a c ≠ .gt) :
    ∀ a b c : α, (cmp a b).swap ≠ .gt → (cmp b c).swap ≠ .gt →
      (cmp a c).swap ≠ .gt := by
  intro a b c h1 h2
  rw [swap_ne_gt] at h1 h2 ⊢
  have e1 : cmp b a ≠ .gt := fun hh => h1 (by rw [hswap b a, hh]; rfl)
  have e2 : cmp c b ≠ .gt := fun hh => h2 (by rw [hswap c b, hh]; rfl)
  have e3 : cmp c a ≠ .gt := htrans c b a e2 e1
  exact fun hh => e3 (swap_eq_lt.mp ((hswap c a).symm.trans hh))

/-- Stable merge sort with the swapped comparator turns an already sorted
list with pairwise distinct keys into its reverse. -/
theorem mergeSort_swap_reverse {α : Type} (cmp : α → α → Ordering)
    (hswap : ∀ a b, cmp b a = (cmp a b).swap)
    (htrans : ∀ a b c, cmp a b ≠ .gt → cmp b c ≠ .gt → cmp a c ≠ .gt)
    (l : List α)
    (hsorted : l.Pairwise (fun a b => (cmp a b != Ordering.gt) = true))
    (hdist : ∀ a ∈ l, ∀ b ∈ l, cmp a b = .eq → a = b) :
    l.mergeSort (fun a b => (cmp a b).swap != Ordering.gt) = l.reverse := by
  have htrans' : ∀ a b c : α, ((cmp a b).swap != Ordering.gt) = true →
      ((cmp b c).swap != Ordering.gt) = true →
      ((cmp a c).swap != Ordering.gt) = true := by
    intro a b c h1 h2
    exact bne_gt_iff.mpr (swap_htrans cmp hswap htrans a b c
      (bne_gt_iff.mp h1) (bne_gt_iff.mp h2))
  have htotal' : ∀ a b : α,
      (((cmp a b).swap != Ordering.gt) || ((cmp b a).swap != Ordering.gt))
        = true := by
    intro a b
    rw [hswap a b, Ordering.swap_swap]
    cases h : cmp a b <;> simp +decide [h, Ordering.swap]
  have hA := List.sorted_mergeSort htrans' htotal' l
  have hperm : (l.mergeSort
      (fun a b => (cmp a b).swap != Ordering.gt)).Perm l.reverse :=
    (List.mergeSort_perm l _).trans (List.reverse_perm l).symm
  have hrev : l.reverse.Pairwise
      (fun a b => ((cmp a b).swap != Ordering.gt) = true) := by
    rw [List.pairwise_reverse]
    refine List.Pairwise.imp ?_ hsorted
    intro a b h
    rw [hswap a b, Ordering.swap_swap]
    exact h
  apply eq_of_perm_of_pairwise hperm hA hrev
  intro a ha b hb h1 h2
  have ha' : a ∈ l := List.mem_mergeSort.mp ha
  have hb' : b ∈ l := List.mem_mergeSort.mp hb
  have e1 : cmp a b ≠ .lt := swap_ne_gt.mp (bne_gt_iff.mp h1)
  have e2 : cmp a b ≠ .gt := by
    have h2' : cmp b a ≠ .lt := swap_ne_gt.mp (bne_gt_iff.mp h2)
    intro hh
    exact h2' (by rw [hswap a b, hh]; rfl)
  have heq : cmp a b = .eq := by
    cases hc : cmp a b
    · exact absurd hc e1
    · rfl
    · exact absurd hc e2
  exact hdist a ha' b hb' heq

/-- The toggle always produces one of the two direction strings. -/
theorem toggleDirection_cases (s : String) :
    toggleDirection s = "asc" ∨ toggleDirection s = "desc" := by
  unfold toggleDirection
  split
  · exact Or.inr rfl
  · exact Or.inl rfl

/-- The sort descriptor written by `sortTable`. -/
theorem sortTable_currentSort (d : Dashboard) (f : String) :
    (sortTable d f).currentSort
      = if d.currentSort.field == some f then
          { d.currentSort with
              direction := toggleDirection d.currentSort.direction }
        else { field := some f, direction := "asc" } := rfl

/-- The filtered view written by `sortTable`, in terms of the updated
descriptor. -/
theorem sortTable_filteredData (d : Dashboard) (f : String) :
    (sortTable d f).filteredData
      = jsSortBy (fun a b =>
          dirOrd (sortTable d f).currentSort.direction (sortCompare f a b))
          d.filteredData := rfl

/-- After `sortTable(f)` the active field is always `f`. -/
theorem sortTable_field (d : Dashboard) (f : String) :
    (sortTable d f).currentSort.field = some f := by
  rw [sortTable_currentSort]
  split
  · rename_i h
    simp only [beq_iff_eq] at h
    simpa using h
  · rfl

/-- After `sortTable(f)` the direction is one of the two strings. -/
theorem sortTable_direction_cases (d : Dashboard) (f : String) :
    (sortTable d f).currentSort.direction = "asc"
      ∨ (sortTable d f).currentSort.direction = "desc" := by
  rw [sortTable_currentSort]
  split
  · exact toggleDirection_cases _
  · exact Or.inl rfl

/-- Sorting twice by the same field toggles the direction the second
time. -/
theorem sortTable_again_direction (d : Dashboard) (f : String) :
    (sortTable (sortTable d f) f).currentSort.direction
      = toggleDirection (sortTable d f).currentSort.direction := by
  rw [sortTable_currentSort (sortTable d f) f]
  rw [if_pos (by rw [sortTable_field d f]; exact beq_self_eq_true _)]

/-- C4 (amended): sorting by the active field toggles the direction and by
an inactive field activates it ascending; when the field's comparator is
consistent (swap-antisymmetric and keep-before transitive) and no two
records of the filtered view compare equal, sorting by the same field twice
yields the exact reverse of the first sort; and records that compare equal
keep their relative order from the pre-sort sequence (stable sort), so with
ties present the second sort is not the exact reverse. -/
theorem c4_sort_toggle_amended (d : Dashboard) (f : String) :
    ((d.currentSort.field = some f →
        (sortTable d f).currentSort
          = { field := d.currentSort.field
              direction := toggleDirection d.currentSort.direction })
      ∧ (d.currentSort.field ≠ some f →
        (sortTable d f).currentSort
          = { field := some f, direction := "asc" }))
    ∧ ((∀ a b : Bill, sortCompare f b a = (sortCompare f a b).swap) →
        (∀ a b c : Bill, sortCompare f a b ≠ .gt → sortCompare f b c ≠ .gt →
          sortCompare f a c ≠ .gt) →
        (∀ a ∈ d.filteredData, ∀ b ∈ d.filteredData,
          sortCompare f a b = .eq → a = b) →
        (sortTable (sortTable d f) f).filteredData
          = ((sortTable d f).filteredData).reverse)
    ∧ ((∀ a b : Bill, sortCompare f b a = (sortCompare f a b).swap) →
        (∀ a b c : Bill, sortCompare f a b ≠ .gt → sortCompare f b c ≠ .gt →
          sortCompare f a c ≠ .gt) →
        ∀ a b : Bill, sortCompare f a b = .eq →
          [a, b].Sublist d.filteredData →
          [a, b].Sublist (sortTable d f).filteredData) := by
  refine ⟨⟨?_, ?_⟩, ?_, ?_⟩
  · intro h
    rw [sortTable_currentSort, if_pos (by rw [h]; exact beq_self_eq_true _)]
  · intro h
    rw [sortTable_currentSort, if_neg (by simpa using h)]
  · intro hswap htrans hdist
    have hdist' : ∀ a ∈ (sortTable d f).filteredData,
        ∀ b ∈ (sortTable d f).filteredData, sortCompare f a b = .eq →
          a = b := by
      intro a ha b hb
      rw [sortTable_filteredData] at ha hb
      exact hdist a (List.mem_mergeSort.mp ha) b (List.mem_mergeSort.mp hb)
    rcases sortTable_direction_cases d f with hd1 | hd1
    · have e1 : (sortTable d f).filteredData
          = d.filteredData.mergeSort
              (fun a b => sortCompare f a b != Ordering.gt) := by
        rw [sortTable_filteredData, hd1]
        rfl
      have e2 : (sortTable (sortTable d f) f).filteredData
          = ((sortTable d f).filteredData).mergeSort
              (fun a b => (sortCompare f a b).swap != Ordering.gt) := by
        rw [sortTable_filteredData (sortTable d f) f,
          sortTable_again_direction, hd1]
        rfl
      rw [e2]
      apply mergeSort_swap_reverse (sortCompare f) hswap htrans
      · rw [e1]
        exact List.sorted_mergeSort (cmp_trans_le (sortCompare f) htrans)
          (cmp_total_of_swap (sortCompare f) hswap) d.filteredData
      · exact hdist'
    · have hswap' : ∀ a b : Bill,
          (sortCompare f b a).swap = ((sortCompare f a b).swap).swap := by
        intro a b
        rw [hswap a b]
      have htrans' : ∀ a b c : Bill,
          (sortCompare f a b).swap ≠ .gt → (sortCompare f b c).swap ≠ .gt →
            (sortCompare f a c).swap ≠ .gt :=
        swap_htrans (sortCompare f) hswap htrans
      have e1 : (sortTable d f).filteredData
          = d.filteredData.mergeSort
              (fun a b => (sortCompare f a b).swap != Ordering.gt) := by
        rw [sortTable_filteredData, hd1]
        rfl
      have e2 : (sortTable (sortTable d f) f).filteredData
          = ((sortTable d f).filteredData).mergeSort
              (fun a b => sortCompare f a b != Ordering.gt) := by
        rw [sortTable_filteredData (sortTable d f) f,
          sortTable_again_direction, hd1]
        rfl
      have efun : (fun a b : Bill =>
            ((sortCompare f a b).swap).swap != Ordering.gt)
          = fun a b : Bill => sortCompare f a b != Ordering.gt := by
        funext a b
        rw [Ordering.swap_swap]
      rw [e2, ← efun]
      apply mergeSort_swap_reverse (fun a b => (sortCompare f a b).swap)
        hswap' htrans'
      · rw [e1]
        exact List.sorted_mergeSort
          (cmp_trans_le (fun a b => (sortCompare f a b).swap) htrans')
          (cmp_total_of_swap (fun a b => (sortCompare f a b).swap) hswap')
          d.filteredData
      · intro a ha b hb hab
        exact hdist' a ha b hb (swap_eq_eq.mp hab)
  · intro hswap htrans a b heq hsub
    rw [sortTable_filteredData]
    rcases sortTable_direction_cases d f with hd1 | hd1 <;> rw [hd1]
    · show [a, b].Sublist (d.filteredData.mergeSort
        (fun x y => sortCompare f x y != Ordering.gt))
      apply List.pair_sublist_mergeSort
        (cmp_trans_le (sortCompare f) htrans)
        (cmp_total_of_swap (sortCompare f) hswap)
        (by rw [heq]; rfl) hsub
    · show [a, b].Sublist (d.filteredData.mergeSort
        (fun x y => (sortCompare f x y).swap != Ordering.gt))
      have htrans' := swap_htrans (sortCompare f) hswap htrans
      have hswap' : ∀ x y : Bill,
          (sortCompare f y x).swap = ((sortCompare f x y).swap).swap := by
        intro x y
        rw [hswap x y]
      apply List.pair_sublist_mergeSort
        (cmp_trans_le (fun x y => (sortCompare f x y).swap) htrans')
        (cmp_total_of_swap (fun x y => (sortCompare f x y).swap) hswap')
        (show ((sortCompare f a b).swap != Ordering.gt) = true by
          rw [heq]; rfl) hsub

/-- C4 counterexample: with two records tied on the notice gap, sorting
twice by the gap field does not reverse the first sort, because the stable
sort keeps the tied records in their original relative order. -/
theorem c4_reverse_counterexample :
    (sortTable (sortTable tieDash "notice_gap_days")
        "notice_gap_days").filteredData
      ≠ ((sortTable tieDash "notice_gap_days").filteredData).reverse := by
  simp +decide [tieDash, sortTable, initialDashboard, jsSortBy,
    List.mergeSort, List.splitInTwo, List.splitAt, List.splitAt.go,
    List.merge, dirOrd, sortCompare, getField, normNull, parseIntOr0,
    tieBillA, tieBillB, sampleBill, toggleDirection]

/-- Witness for C4 (amended) on a two-record dashboard sorted by the
identifier field, whose comparator is consistent and tie-free. -/
theorem c4_sort_toggle_amended_witness :
    (sortTable (initialDashboard [sampleCompliant, sampleNonCompliant])
        "bill_id").currentSort
      = { field := some "bill_id", direction := "asc" }
    ∧ (sortTable (sortTable (initialDashboard
          [sampleCompliant, sampleNonCompliant]) "bill_id")
        "bill_id").filteredData
      = ((sortTable (initialDashboard [sampleCompliant, sampleNonCompliant])
          "bill_id").filteredData).reverse := by
  constructor
  · exact (c4_sort_toggle_amended (initialDashboard
      [sampleCompliant, sampleNonCompliant]) "bill_id").1.2 (by decide)
  · exact (c4_sort_toggle_amended (initialDashboard
      [sampleCompliant, sampleNonCompliant]) "bill_id").2.1
      sortCompare_bill_id_swap sortCompare_bill_id_le_trans (by decide)

/-- C3 counterexample: on the hearing-date field a record with a null
hearing date compares equal to a record with a valid date in the code's
comparator, while the reference ordering of the claim puts the null first. -/
theorem c3_comparator_counterexample :
    sortCompare "hearing_date" hdBillNone hdBillJun
      ≠ specCompare "hearing_date" hdBillNone hdBillJun := by
  decide

/-- C3 (amended): the comparator treats the notice-gap field as integers
with null coerced to 0 (so gaps [9, 10, 2, null] sort ascending to
[null→0, 2, 9, 10]); only the hearing-date field is parsed as a calendar
date, chronological when both sides parse and comparing equal to everything
when a side is null or unparseable; deadline fields and all other fields
compare lexicographically as strings, with a null value normalising to the
empty string that sorts before any non-empty value. -/
theorem c3_comparator_amended (a b : Bill) :
    sortCompare "notice_gap_days" a b
        = compare (a.notice_gap_days.getD 0) (b.notice_gap_days.getD 0)
    ∧ (a.hearing_date = none → sortCompare "hearing_date" a b = .eq)
    ∧ (∀ x y dx dy, a.hearing_date = some x → b.hearing_date = some y →
        jsDate x = some dx → jsDate y = some dy →
        sortCompare "hearing_date" a b = compare dx dy)
    ∧ (∀ t, a.deadline_60 = none → b.deadline_60 = some t → t ≠ "" →
        sortCompare "deadline_60" a b = .lt)
    ∧ (∀ s t, a.deadline_60 = some s → b.deadline_60 = some t →
        sortCompare "deadline_60" a b = lexCmp s.data t.data)
    ∧ (sortTable gapsDash "notice_gap_days").filteredData.map
        (fun r => r.notice_gap_days) = [none, some 2, some 9, some 10] := by
  refine ⟨?_, ?_, ?_, ?_, ?_, ?_⟩
  · cases hga : a.notice_gap_days <;> cases hgb : b.notice_gap_days <;>
      simp +decide [sortCompare, getField, normNull, parseIntOr0, strToNum,
        hga, hgb]
  · intro h
    simp +decide [sortCompare, getField, normNull, jsDateVal, jsDate, optStr, h]
  · intro x y dx dy hx hy hdx hdy
    simp +decide [sortCompare, getField, normNull, jsDateVal, optStr, hx, hy,
      hdx, hdy]
  · intro t h1 h2 ht
    have hd : t.data ≠ [] := by
      intro hh
      exact ht (String.ext (by rw [hh]))
    obtain ⟨c, cs, hcs⟩ : ∃ c cs, t.data = c :: cs := by
      cases hl : t.data with
      | nil => exact absurd hl hd
      | cons c cs => exact ⟨c, cs, rfl⟩
    simp +decide [sortCompare, getField, normNull, jsLt, optStr, h1, h2, hcs,
      lexCmp]
  · intro s t h1 h2
    have h := cmpStr_eq_lexCmp s.data t.data
    simp +decide [sortCompare, getField, normNull, jsLt, optStr, h1, h2] at h ⊢
    exact h
  · simp +decide [gapsDash, sortTable, initialDashboard, jsSortBy,
      List.mergeSort, List.splitInTwo, List.splitAt, List.splitAt.go,
      List.merge, dirOrd, sortCompare, getField, normNull, parseIntOr0,
      gBill9, gBill10, gBill2, gBillNone, sampleBill]

/-- Witness for C3 (amended) at concrete records. -/
theorem c3_comparator_amended_witness :
    sortCompare "hearing_date" hdBillNone hdBillJun = .eq
    ∧ sortCompare "hearing_date" hdBillJun hdBillJul
        = compare 20250601 20250715
    ∧ sortCompare "deadline_60" dlBillNone dlBillA = .lt
    ∧ sortCompare "notice_gap_days" gBill9 gBill2
        = compare (gBill9.notice_gap_days.getD 0)
            (gBill2.notice_gap_days.getD 0) := by
  refine ⟨?_, ?_, ?_, ?_⟩
  · exact (c3_comparator_amended hdBillNone hdBillJun).2.1 rfl
  · exact (c3_comparator_amended hdBillJun hdBillJul).2.2.1 "2025-06-01"
      "2025-07-15" 20250601 20250715 rfl rfl (by decide) (by decide)
  · exact (c3_comparator_amended dlBillNone dlBillA).2.2.2.1 "2025-01-02"
      rfl rfl (by decide)
  · exact (c3_comparator_amended gBill9 gBill2).1

/-- Witness for C10 at a concrete dashboard and an unrecognized status
value. -/
theorem c10_unmatched_filter_empty_witness :
    (applyFilters (initialDashboard [sampleCompliant]) "weird").filteredData
        = []
    ∧ renderPagination (applyFilters (initialDashboard [sampleCompliant])
        "weird") = .countOnly 0 :=
  c10_unmatched_filter_empty (initialDashboard [sampleCompliant]) "weird"
    (by decide) (by decide)

end CDash
